import Mathlib

/-!
Verification development for the Cesium excerpt:
  - `Source/Core/GeometryAttribute.js` (GeometryAttribute and its `clone`)
  - `Scene/WebMapServiceImageryProvider.js` (parameter merge and `buildImageUrl`)
  - `Core/PolylineGeometry` (only its test suite is present in the excerpt;
    the tessellator itself is modelled from the specification document).

Shallow embedding conventions: JavaScript `undefined` becomes `Option.none`;
functions that throw return `Option`/`Except`; typed arrays live in an explicit
store (a list of arrays) so that aliasing and deep-copy properties can be
stated; JavaScript numbers are modelled by `Rat` (no floating-point rounding is
exercised by any property proved here); JavaScript objects used as string maps
become association lists in insertion order, matching `for (k in obj)`
enumeration order for non-numeric keys.
-/

namespace Cesium

/-! ## GeometryAttribute (Source/Core/GeometryAttribute.js)

`values` is documented as "the values for the attributes stored in a typed
array".  A typed array is modelled as a tag (its concrete constructor, e.g.
`Float32Array`) together with its numeric contents.  Attributes hold a
reference (an index) into a store of typed arrays, so that sharing and
mutation can be expressed. -/

/-- Concrete JavaScript typed-array constructors: the runtime class of a
`values` array.  `new k(src)` with `src` of the same kind `k` copies the
elements verbatim. -/
inductive ArrayKind where
  | int8Array
  | uint8Array
  | int16Array
  | uint16Array
  | int32Array
  | uint32Array
  | float32Array
  | float64Array
deriving DecidableEq, Repr

/-- A typed array: its concrete constructor kind and its elements. -/
structure TypedArray where
  kind : ArrayKind
  data : List Rat
deriving DecidableEq, Repr

/-- The store of allocated typed arrays; an array reference is an index into
this list. -/
abbrev Store := List TypedArray

/-- Write value `v` at element index `i` of the array at reference `ref`.
Out-of-range element writes are ignored, as they are on JavaScript typed
arrays; a dangling reference leaves the store unchanged. -/
def storeWrite : Store → Nat → Nat → Rat → Store
  | [], _, _, _ => []
  | a :: s, 0, i, v => { a with data := a.data.set i v } :: s
  | a :: s, ref + 1, i, v => a :: storeWrite s ref i v

/-- The option bag accepted by the `GeometryAttribute` constructor.  The
`componentDatatype` enum is external to the excerpt and is carried opaquely
as a `Nat` tag; the constructor and `clone` only copy it. -/
structure GeometryAttributeOptions where
  componentDatatype : Option Nat
  componentsPerAttribute : Option Nat
  normalize : Option Bool
  values : Option Nat
deriving DecidableEq, Repr

/-- The options object with every field absent: `new GeometryAttribute()`. -/
def emptyOptions : GeometryAttributeOptions :=
  { componentDatatype := none
    componentsPerAttribute := none
    normalize := none
    values := none }

/-- A `GeometryAttribute`: three scalar fields plus a reference to the
`values` typed array in the store (or `none` for `undefined`). -/
structure GeometryAttribute where
  componentDatatype : Option Nat
  componentsPerAttribute : Option Nat
  normalize : Bool
  values : Option Nat
deriving DecidableEq, Repr

/-- The `GeometryAttribute` constructor: stores the options as given, with
`normalize` defaulting to `false`.  No validation is performed. -/
def GeometryAttribute.ofOptions (options : GeometryAttributeOptions) : GeometryAttribute :=
  { componentDatatype := options.componentDatatype
    componentsPerAttribute := options.componentsPerAttribute
    normalize := options.normalize.getD false
    values := options.values }

/-- `GeometryAttribute.prototype.clone`.  The scalar fields are copied onto
`result` (a fresh attribute when `result` is absent) and the values array is
duplicated through its own constructor: `new this.values.constructor(this.values)`,
which allocates a fresh array of the same kind at the end of the store.
When `this.values` is `undefined` the property access
`this.values.constructor` throws, which is modelled by returning `none`;
a dangling reference also yields `none` (unreachable in well-formed states). -/
def GeometryAttribute.clone (this : GeometryAttribute) (s : Store)
    (result : Option GeometryAttribute) : Option (GeometryAttribute × Store) :=
  let r := result.getD (GeometryAttribute.ofOptions emptyOptions)
  match this.values with
  | none => none
  | some ref =>
    match s[ref]? with
    | none => none
    | some arr =>
      some ({ r with
                componentDatatype := this.componentDatatype
                componentsPerAttribute := this.componentsPerAttribute
                normalize := this.normalize
                values := some s.length },
            s ++ [{ kind := arr.kind, data := arr.data }])

/-! ## WebMapServiceImageryProvider (Scene/WebMapServiceImageryProvider.js)

URL parameters are association lists of string pairs in insertion order.
`obj[k] = v` on a JavaScript object replaces the value in place when the key
is present and appends the key otherwise, which is what `setParam` does. -/

/-- JavaScript `String.prototype.toLowerCase` on the ASCII keys used here. -/
def lowerStr (s : String) : String := ⟨s.data.map Char.toLower⟩

/-- Property lookup on an object modelled as an association list. -/
def lookupParam (ps : List (String × String)) (k : String) : Option String :=
  (ps.find? (fun p => p.1 = k)).map (fun p => p.2)

/-- `obj[k] = v`: replace in place when present, append otherwise. -/
def setParam : List (String × String) → String → String → List (String × String)
  | [], k, v => [(k, v)]
  | p :: ps, k, v => if p.1 = k then (k, v) :: ps else p :: setParam ps k v

/-- `WebMapServiceImageryProvider.DefaultParameters`. -/
def DefaultParameters : List (String × String) :=
  [("service", "WMS"),
   ("version", "1.1.1"),
   ("request", "GetMap"),
   ("styles", ""),
   ("format", "image/jpeg")]

/-- The constructor loop: clone the defaults, then for each caller-supplied
parameter store its value under the lowercased key. -/
def mergeParameters (overrides : List (String × String)) : List (String × String) :=
  overrides.foldl (fun ps kv => setParam ps (lowerStr kv.1) kv.2) DefaultParameters

/-- The native extent returned by `tilingScheme.tileXYToNativeExtent`.  The
tiling-scheme classes are external to the excerpt; the four coordinates are
carried as their string renderings, which is all `buildImageUrl` uses. -/
structure NativeExtent where
  west : String
  south : String
  east : String
  north : String

/-- The description bag accepted by the `WebMapServiceImageryProvider`
constructor.  `tilingScheme` stands for the `GeographicTilingScheme` the
constructor builds from `description.extent`; that class is external to the
excerpt, so its tile-to-extent transform is carried as a function. -/
structure WMSDescription where
  url : Option String
  layers : Option String
  parameters : Option (List (String × String))
  proxy : Option (String → String)
  tilingScheme : Nat → Nat → Nat → NativeExtent

/-- The provider state relevant to URL construction. -/
structure WebMapServiceImageryProvider where
  url : String
  layers : String
  parameters : List (String × String)
  proxy : Option (String → String)
  tilingScheme : Nat → Nat → Nat → NativeExtent

/-- The `WebMapServiceImageryProvider` constructor: requires `url` and
`layers`, then merges `description.parameters` over the defaults with
lowercased keys. -/
def WebMapServiceImageryProvider.create (d : WMSDescription) :
    Except String WebMapServiceImageryProvider :=
  match d.url with
  | none => .error "description.url is required."
  | some url =>
    match d.layers with
    | none => .error "description.layers is required."
    | some layers =>
      .ok { url := url
            layers := layers
            parameters := mergeParameters (d.parameters.getD [])
            proxy := d.proxy
            tilingScheme := d.tilingScheme }

/-- The query-separator fixup at the top of `buildImageUrl`: ensure the URL
ends ready for `key=value&` appends.  A URL with `?` not in last position
gets a trailing `&` unless it already ends in one; a URL without `?` gets
one appended; a URL ending in `?` is left alone. -/
def fixUrlQuery (url : String) : String :=
  match url.data.findIdx? (fun c => c = '?') with
  | none => url ++ "?"
  | some i =>
    if i < url.data.length - 1 then
      if url.data.getLast? ≠ some '&' then url ++ "&" else url
    else url

/-- The parameter-enumeration loop of `buildImageUrl`:
`url += parameter + "=" + parameters[parameter] + "&"` over the object's
keys in insertion order. -/
def paramString : List (String × String) → String
  | [] => ""
  | p :: ps => p.1 ++ "=" ++ p.2 ++ "&" ++ paramString ps

/-- The `west,south,east,north` rendering of a native extent. -/
def bboxString (e : NativeExtent) : String :=
  e.west ++ "," ++ e.south ++ "," ++ e.east ++ "," ++ e.north

/-- `buildImageUrl(imageryProvider, x, y, level)` translated clause by
clause from the source. -/
def buildImageUrl (ip : WebMapServiceImageryProvider) (x y level : Nat) : String :=
  let url0 := fixUrlQuery ip.url
  let url1 := url0 ++ paramString ip.parameters
  let url2 :=
    if (lookupParam ip.parameters "layers").isNone then
      url1 ++ "layers=" ++ ip.layers ++ "&" else url1
  let url3 :=
    if (lookupParam ip.parameters "srs").isNone then
      url2 ++ "srs=EPSG:4326&" else url2
  let url4 :=
    if (lookupParam ip.parameters "bbox").isNone then
      url3 ++ "bbox=" ++ bboxString (ip.tilingScheme x y level) ++ "&" else url3
  let url5 :=
    if (lookupParam ip.parameters "width").isNone then
      url4 ++ "width=256&" else url4
  let url6 :=
    if (lookupParam ip.parameters "height").isNone then
      url5 ++ "height=256&" else url5
  match ip.proxy with
  | none => url6
  | some getURL => getURL url6

/-- The five conditional appends of `buildImageUrl`, written as the string
they contribute: each piece is present exactly when the merged parameters do
not define its key. -/
def conditionalAppends (ip : WebMapServiceImageryProvider) (x y level : Nat) : String :=
  (if (lookupParam ip.parameters "layers").isNone then
    "layers=" ++ ip.layers ++ "&" else "") ++
  (if (lookupParam ip.parameters "srs").isNone then "srs=EPSG:4326&" else "") ++
  (if (lookupParam ip.parameters "bbox").isNone then
    "bbox=" ++ bboxString (ip.tilingScheme x y level) ++ "&" else "") ++
  (if (lookupParam ip.parameters "width").isNone then "width=256&" else "") ++
  (if (lookupParam ip.parameters "height").isNone then "height=256&" else "")

/-- `seg` occurs contiguously inside `u`. -/
def containsSeg (seg u : String) : Prop := ∃ a b : String, u = a ++ seg ++ b

/-- The keys of a parameter object, in enumeration order. -/
def keysOf (ps : List (String × String)) : List String := ps.map (fun p => p.1)

/-! ## PolylineGeometry (Core/PolylineGeometry)

Only the Jasmine test suite for `PolylineGeometry` is present in the excerpt;
the tessellator itself is missing, so it is modelled from the specification:
validation (missing/insufficient input, invalid width, invalid color count),
then per-segment quad expansion with `4N - 4` vertices, the five fixed
attribute channels, the optional color channel, and `6(N - 1)` indices. -/

/-- Modelled from the spec: a 3-D position (`Cartesian3`); the scalar carrier
is `Rat` since no property proved here depends on float rounding. -/
structure Cartesian3 where
  x : Rat
  y : Rat
  z : Rat
deriving DecidableEq, Repr

/-- Modelled from the spec: an RGBA color. -/
structure Color where
  red : Rat
  green : Rat
  blue : Rat
  alpha : Rat
deriving DecidableEq, Repr

/-- Modelled from the spec: the two validation error kinds, `MissingInput`
(required field absent or below minimum cardinality) and `InvalidParameter`
(out-of-range scalar or mismatched auxiliary-array length). -/
inductive TessError where
  | missingInput
  | invalidParameter
deriving DecidableEq, Repr

/-- Modelled from the spec: an output attribute buffer of the tessellation
result — a flat numeric sequence of `componentsPerVertex × vertexCount`
values in vertex-major order. -/
structure MeshAttribute where
  componentsPerVertex : Nat
  values : List Rat
deriving DecidableEq, Repr

/-- Modelled from the spec: the tessellation result — the five fixed
attribute channels, the optional color channel, and the triangle index
stream. -/
structure PolylineMesh where
  position : MeshAttribute
  prevPosition : MeshAttribute
  nextPosition : MeshAttribute
  expandAndWidth : MeshAttribute
  st : MeshAttribute
  color : Option MeshAttribute
  indices : List Nat
deriving DecidableEq, Repr

/-- Modelled from the spec: the tessellation input.  `positions` is optional
to express the `undefined` case the validator must reject; `colorsPerVertex`
selects per-vertex versus per-segment interpretation of `colors`. -/
structure TessellationInput where
  positions : Option (List Cartesian3)
  width : Rat
  colors : Option (List Color)
  colorsPerVertex : Bool

/-- Modelled from the spec: the color count the validator accepts —
`positions.length` in per-vertex mode, `positions.length - 1` (one per
segment) otherwise. -/
def expectedColorCount (colorsPerVertex : Bool) (n : Nat) : Nat :=
  if colorsPerVertex then n else n - 1

/-- Position lookup; indices produced by the tessellator are always in
range, so the default is never reached on its outputs. -/
def posGet (ps : List Cartesian3) (i : Nat) : Cartesian3 :=
  ps.getD i { x := 0, y := 0, z := 0 }

/-- Color lookup with an opaque in-range use. -/
def colorGet (cs : List Color) (i : Nat) : Color :=
  cs.getD i { red := 0, green := 0, blue := 0, alpha := 0 }

/-- A position flattened to its three components. -/
def cart3List (p : Cartesian3) : List Rat := [p.x, p.y, p.z]

/-- A color flattened to its four components. -/
def colorList (c : Color) : List Rat := [c.red, c.green, c.blue, c.alpha]

/-- Modelled from the spec: one vertex of the expanded polyline, recorded as
(segment index, anchor position index, expansion side).  Segment `j` (between
positions `j` and `j + 1`) contributes the four combinations of
start/end × left/right. -/
def segmentQuad (j : Nat) : List (Nat × Nat × Int) :=
  [(j, j, -1), (j, j, 1), (j, j + 1, -1), (j, j + 1, 1)]

/-- Modelled from the spec: the vertex layout — 4 vertices per segment ×
(N − 1) segments, in segment order. -/
def meshVertices (n : Nat) : List (Nat × Nat × Int) :=
  ((List.range (n - 1)).map segmentQuad).flatten

/-- Modelled from the spec, step 2: the anchor of each vertex, and its
predecessor and successor clamped at the polyline ends. -/
def anchorPos (ps : List Cartesian3) (v : Nat × Nat × Int) : List Rat :=
  cart3List (posGet ps v.2.1)

/-- Predecessor position of the anchor, repeated at the first point. -/
def prevPos (ps : List Cartesian3) (v : Nat × Nat × Int) : List Rat :=
  cart3List (posGet ps (v.2.1 - 1))

/-- Successor position of the anchor, repeated at the last point. -/
def nextPos (ps : List Cartesian3) (v : Nat × Nat × Int) : List Rat :=
  cart3List (posGet ps (min (v.2.1 + 1) (ps.length - 1)))

/-- Modelled from the spec, step 3: side selector in {−1, +1} and the
requested width. -/
def expandEntry (width : Rat) (v : Nat × Nat × Int) : List Rat :=
  [(v.2.2 : Rat), width]

/-- Modelled from the spec, step 4: normalized position along the polyline
and the side selector. -/
def stEntry (n : Nat) (v : Nat × Nat × Int) : List Rat :=
  [(v.2.1 : Rat) / ((n : Rat) - 1), (v.2.2 : Rat)]

/-- Modelled from the spec, step 5: per-vertex mode gives each vertex its
anchor position's color; per-segment mode gives all four vertices of
segment `j` the color `colors[j]`. -/
def colorEntry (cs : List Color) (colorsPerVertex : Bool) (v : Nat × Nat × Int) : List Rat :=
  colorList (colorGet cs (if colorsPerVertex then v.2.1 else v.1))

/-- Modelled from the spec, step 6: segment `j` over vertices
`4j .. 4j + 3` emits two triangles with consistent winding. -/
def segmentIndices (j : Nat) : List Nat :=
  [4 * j, 4 * j + 2, 4 * j + 1, 4 * j + 1, 4 * j + 2, 4 * j + 3]

/-- Modelled from the spec: assemble the mesh for already-validated input. -/
def buildMesh (ps : List Cartesian3) (width : Rat) (colors : Option (List Color))
    (colorsPerVertex : Bool) : PolylineMesh :=
  let n := ps.length
  let verts := meshVertices n
  { position := { componentsPerVertex := 3, values := (verts.map (anchorPos ps)).flatten }
    prevPosition := { componentsPerVertex := 3, values := (verts.map (prevPos ps)).flatten }
    nextPosition := { componentsPerVertex := 3, values := (verts.map (nextPos ps)).flatten }
    expandAndWidth := { componentsPerVertex := 2, values := (verts.map (expandEntry width)).flatten }
    st := { componentsPerVertex := 2, values := (verts.map (stEntry n)).flatten }
    color := colors.map (fun cs =>
      { componentsPerVertex := 4, values := (verts.map (colorEntry cs colorsPerVertex)).flatten })
    indices := ((List.range (n - 1)).map segmentIndices).flatten }

/-- Modelled from the spec: `createGeometry` — validation in the documented
order (positions, then width, then color count), then mesh assembly.  Errors
are returned before any mesh construction and no partial mesh exists. -/
def createGeometry (input : TessellationInput) : Except TessError PolylineMesh :=
  match input.positions with
  | none => .error .missingInput
  | some ps =>
    if ps.length < 2 then .error .missingInput
    else if input.width ≤ 0 then .error .invalidParameter
    else
      match input.colors with
      | some cs =>
        if cs.length ≠ expectedColorCount input.colorsPerVertex ps.length then
          .error .invalidParameter
        else .ok (buildMesh ps input.width (some cs) input.colorsPerVertex)
      | none => .ok (buildMesh ps input.width none input.colorsPerVertex)

/-! ## Helper lemmas -/

theorem flatten_map_length {α β : Type} (l : List α) (f : α → List β) (k : Nat)
    (h : ∀ a ∈ l, (f a).length = k) : ((l.map f).flatten).length = k * l.length := by
  induction l with
  | nil => simp
  | cons a t ih =>
    simp only [List.map_cons, List.flatten_cons, List.length_append, List.length_cons]
    rw [h a (by simp), ih (fun b hb => h b (by simp [hb])), Nat.mul_succ]
    omega

theorem meshVertices_length (n : Nat) : (meshVertices n).length = 4 * (n - 1) := by
  unfold meshVertices
  rw [flatten_map_length (List.range (n - 1)) segmentQuad 4 (fun a _ => rfl)]
  simp

theorem createGeometry_ok (input : TessellationInput) (ps : List Cartesian3)
    (hp : input.positions = some ps) (hn : 2 ≤ ps.length) (hw : 0 < input.width)
    (hc : ∀ cs, input.colors = some cs →
      cs.length = expectedColorCount input.colorsPerVertex ps.length) :
    createGeometry input =
      .ok (buildMesh ps input.width input.colors input.colorsPerVertex) := by
  unfold createGeometry
  rw [hp]
  have h1 : ¬ ps.length < 2 := by omega
  have h2 : ¬ input.width ≤ 0 := not_le.mpr hw
  cases hcol : input.colors with
  | none => simp [h1, h2]
  | some cs => simp [h1, h2, hc cs hcol]

theorem flatten_getD {α : Type} (l : List (List α)) (k j r : Nat) (d : α)
    (h : ∀ c ∈ l, c.length = k) (hj : j < l.length) (hr : r < k) :
    (l.flatten).getD (k * j + r) d = (l.getD j []).getD r d := by
  induction l generalizing j with
  | nil => simp at hj
  | cons c t ih =>
    cases j with
    | zero =>
      rw [List.flatten_cons, List.getD_cons_zero]
      have hc : c.length = k := h c (by simp)
      rw [List.getD_eq_getElem?_getD, List.getD_eq_getElem?_getD,
        List.getElem?_append_left (by omega)]
      norm_num
    | succ j =>
      rw [List.flatten_cons, List.getD_cons_succ]
      have hc : c.length = k := h c (by simp)
      have hstep : k * (j + 1) + r = c.length + (k * j + r) := by
        rw [hc, Nat.mul_succ]; omega
      rw [List.getD_eq_getElem?_getD, hstep, List.getElem?_append_right (by omega)]
      have hsub : c.length + (k * j + r) - c.length = k * j + r := by omega
      rw [hsub, ← List.getD_eq_getElem?_getD]
      exact ih j (fun b hb => h b (by simp [hb])) (by simpa using hj)

theorem getD_range {n j d : Nat} (h : j < n) : (List.range n).getD j d = j := by
  rw [List.getD_eq_getElem?_getD, List.getElem?_range h]
  rfl

theorem flatten_chunk {α : Type} (l : List (List α)) (k m : Nat)
    (h : ∀ c ∈ l, c.length = k) (hm : m < l.length) :
    ((l.flatten).drop (k * m)).take k = l.getD m [] := by
  induction l generalizing m with
  | nil => simp at hm
  | cons c t ih =>
    cases m with
    | zero =>
      rw [List.getD_cons_zero, List.flatten_cons, Nat.mul_zero, List.drop_zero,
        ← h c (by simp), List.take_left]
    | succ m =>
      rw [List.getD_cons_succ, List.flatten_cons]
      have hc : c.length = k := h c (by simp)
      have hstep : k * (m + 1) = c.length + k * m := by rw [hc, Nat.mul_succ]; omega
      rw [hstep, List.drop_append]
      exact ih m (fun b hb => h b (by simp [hb])) (by simpa using hm)

theorem getD_map_of_lt {α β : Type} (l : List α) (f : α → β) (i : Nat) (d : β) (dd : α)
    (hi : i < l.length) : (l.map f).getD i d = f (l.getD i dd) := by
  rw [List.getD_eq_getElem?_getD, List.getD_eq_getElem?_getD, List.getElem?_map,
    List.getElem?_eq_getElem hi]
  rfl

/-! ## Claims about the polyline tessellator (modelled from the spec) -/

/-- C1: for every valid tessellation input with `N ≥ 2` positions, every
attribute buffer of the resulting mesh has vertex count `4N − 4`: the
`position`, `prevPosition` and `nextPosition` buffers have `3(4N − 4)`
values, the `expandAndWidth` and `st` buffers have `2(4N − 4)` values, and
the color buffer, when present, has `4(4N − 4)` values. -/
theorem claim_C1_vertex_counts (input : TessellationInput) (ps : List Cartesian3)
    (hp : input.positions = some ps) (hn : 2 ≤ ps.length) (hw : 0 < input.width)
    (hc : ∀ cs, input.colors = some cs →
      cs.length = expectedColorCount input.colorsPerVertex ps.length) :
    ∃ mesh, createGeometry input = .ok mesh ∧
      mesh.position.values.length = 3 * (4 * ps.length - 4) ∧
      mesh.prevPosition.values.length = 3 * (4 * ps.length - 4) ∧
      mesh.nextPosition.values.length = 3 * (4 * ps.length - 4) ∧
      mesh.expandAndWidth.values.length = 2 * (4 * ps.length - 4) ∧
      mesh.st.values.length = 2 * (4 * ps.length - 4) ∧
      ∀ c, mesh.color = some c → c.values.length = 4 * (4 * ps.length - 4) := by
  refine ⟨_, createGeometry_ok input ps hp hn hw hc, ?_, ?_, ?_, ?_, ?_, ?_⟩
  · show ((meshVertices ps.length).map (anchorPos ps)).flatten.length = _
    rw [flatten_map_length (meshVertices ps.length) (anchorPos ps) 3 (fun a _ => rfl),
      meshVertices_length]
    omega
  · show ((meshVertices ps.length).map (prevPos ps)).flatten.length = _
    rw [flatten_map_length (meshVertices ps.length) (prevPos ps) 3 (fun a _ => rfl),
      meshVertices_length]
    omega
  · show ((meshVertices ps.length).map (nextPos ps)).flatten.length = _
    rw [flatten_map_length (meshVertices ps.length) (nextPos ps) 3 (fun a _ => rfl),
      meshVertices_length]
    omega
  · show ((meshVertices ps.length).map (expandEntry input.width)).flatten.length = _
    rw [flatten_map_length (meshVertices ps.length) (expandEntry input.width) 2
      (fun a _ => rfl), meshVertices_length]
    omega
  · show ((meshVertices ps.length).map (stEntry ps.length)).flatten.length = _
    rw [flatten_map_length (meshVertices ps.length) (stEntry ps.length) 2
      (fun a _ => rfl), meshVertices_length]
    omega
  · intro c hcl
    cases hcol : input.colors with
    | none => rw [hcol] at hcl; simp [buildMesh] at hcl
    | some cs =>
      rw [hcol] at hcl
      simp only [buildMesh, Option.map_some] at hcl
      cases hcl
      show ((meshVertices ps.length).map
        (colorEntry cs input.colorsPerVertex)).flatten.length = _
      rw [flatten_map_length (meshVertices ps.length)
        (colorEntry cs input.colorsPerVertex) 4 (fun a _ => rfl), meshVertices_length]
      omega

/-- The three collinear positions of the concrete test case. -/
def testPositions3 : List Cartesian3 :=
  [{ x := 0, y := 0, z := 0 }, { x := 1, y := 0, z := 0 }, { x := 2, y := 0, z := 0 }]

/-- The concrete test input: three positions, width 10, no colors. -/
def testInputPlain : TessellationInput :=
  { positions := some testPositions3, width := 10, colors := none,
    colorsPerVertex := false }

/-- Witness for C1 at the concrete test input: three collinear positions and
width 10 give buffers of 24, 24, 24, 16 and 16 values. -/
theorem claim_C1_witness :
    ∃ mesh, createGeometry testInputPlain = .ok mesh ∧
      mesh.position.values.length = 24 ∧
      mesh.prevPosition.values.length = 24 ∧
      mesh.nextPosition.values.length = 24 ∧
      mesh.expandAndWidth.values.length = 16 ∧
      mesh.st.values.length = 16 ∧
      ∀ c, mesh.color = some c → c.values.length = 32 :=
  claim_C1_vertex_counts testInputPlain testPositions3 rfl (by decide) (by decide)
    (fun cs h => Option.noConfusion h)

/-- C2: for every valid tessellation input with `N ≥ 2` positions, the index
stream has length exactly `6(N − 1)` — two triangles per segment. -/
theorem claim_C2_index_count (input : TessellationInput) (ps : List Cartesian3)
    (hp : input.positions = some ps) (hn : 2 ≤ ps.length) (hw : 0 < input.width)
    (hc : ∀ cs, input.colors = some cs →
      cs.length = expectedColorCount input.colorsPerVertex ps.length) :
    ∃ mesh, createGeometry input = .ok mesh ∧
      mesh.indices.length = 6 * (ps.length - 1) := by
  refine ⟨_, createGeometry_ok input ps hp hn hw hc, ?_⟩
  show ((List.range (ps.length - 1)).map segmentIndices).flatten.length = _
  rw [flatten_map_length (List.range (ps.length - 1)) segmentIndices 6 (fun a _ => rfl)]
  simp

/-- Witness for C2: the concrete three-position input yields 12 indices. -/
theorem claim_C2_witness :
    ∃ mesh, createGeometry testInputPlain = .ok mesh ∧ mesh.indices.length = 12 :=
  claim_C2_index_count testInputPlain testPositions3 rfl (by decide) (by decide)
    (fun cs h => Option.noConfusion h)

/-- C4: when `positions` is undefined or has fewer than 2 elements,
`createGeometry` fails with the missing-input error and returns no mesh. -/
theorem claim_C4_missing_positions (input : TessellationInput)
    (h : input.positions = none ∨ ∃ ps, input.positions = some ps ∧ ps.length < 2) :
    createGeometry input = .error .missingInput := by
  rcases h with h | ⟨ps, hp, hlen⟩
  · unfold createGeometry; rw [h]
  · unfold createGeometry; rw [hp]; simp [hlen]

/-- Witness for C4 at the empty input. -/
theorem claim_C4_witness :
    createGeometry { positions := none, width := 1, colors := none,
                     colorsPerVertex := false } = .error .missingInput :=
  claim_C4_missing_positions _ (Or.inl rfl)

/-- C5: with at least two positions but `width ≤ 0`, `createGeometry` fails
with the invalid-parameter error and returns no mesh. -/
theorem claim_C5_invalid_width (input : TessellationInput) (ps : List Cartesian3)
    (hp : input.positions = some ps) (hn : 2 ≤ ps.length)
    (hw : input.width ≤ 0) :
    createGeometry input = .error .invalidParameter := by
  unfold createGeometry
  rw [hp]
  have h1 : ¬ ps.length < 2 := by omega
  simp [h1, hw]

/-- Witness for C5: two positions and width −1 are rejected. -/
theorem claim_C5_witness :
    createGeometry { positions := some [{ x := 0, y := 0, z := 0 },
                                        { x := 1, y := 0, z := 0 }],
                     width := -1, colors := none, colorsPerVertex := false }
      = .error .invalidParameter :=
  claim_C5_invalid_width _ [{ x := 0, y := 0, z := 0 }, { x := 1, y := 0, z := 0 }]
    rfl (by decide) (by norm_num)

/-- C6: a supplied color array whose length does not match the count selected
by `colorsPerVertex` (`N` per-vertex, `N − 1` per-segment) is rejected with
the invalid-parameter error. -/
theorem claim_C6_invalid_color_count (input : TessellationInput)
    (ps : List Cartesian3) (cs : List Color)
    (hp : input.positions = some ps) (hn : 2 ≤ ps.length) (hw : 0 < input.width)
    (hcol : input.colors = some cs)
    (hbad : cs.length ≠ expectedColorCount input.colorsPerVertex ps.length) :
    createGeometry input = .error .invalidParameter := by
  unfold createGeometry
  rw [hp, hcol]
  have h1 : ¬ ps.length < 2 := by omega
  have h2 : ¬ input.width ≤ 0 := not_le.mpr hw
  simp [h1, h2, hbad]

/-- C7: when colors are supplied and valid, the color attribute is present
with `4 × (4N − 4)` values, and vertex `4j + r` of segment `j`
(`r = 0, 1` anchored at position `j`; `r = 2, 3` at position `j + 1`)
carries `colors[j + r / 2]` in per-vertex mode and `colors[j]` in
per-segment mode. -/
theorem claim_C7_color_assignment (input : TessellationInput) (ps : List Cartesian3)
    (cs : List Color)
    (hp : input.positions = some ps) (hn : 2 ≤ ps.length) (hw : 0 < input.width)
    (hcol : input.colors = some cs)
    (hlen : cs.length = expectedColorCount input.colorsPerVertex ps.length) :
    ∃ mesh c, createGeometry input = .ok mesh ∧ mesh.color = some c ∧
      c.values.length = 4 * (4 * ps.length - 4) ∧
      ∀ j r, j < ps.length - 1 → r < 4 →
        (c.values.drop (4 * (4 * j + r))).take 4 =
          colorList (colorGet cs (if input.colorsPerVertex then j + r / 2 else j)) := by
  have hok := createGeometry_ok input ps hp hn hw
    (fun cs2 h => by rw [hcol] at h; cases h; exact hlen)
  refine ⟨buildMesh ps input.width input.colors input.colorsPerVertex,
    { componentsPerVertex := 4,
      values := ((meshVertices ps.length).map
        (colorEntry cs input.colorsPerVertex)).flatten },
    hok, ?_, ?_, ?_⟩
  · simp [buildMesh, hcol]
  · show ((meshVertices ps.length).map
      (colorEntry cs input.colorsPerVertex)).flatten.length = _
    rw [flatten_map_length (meshVertices ps.length)
      (colorEntry cs input.colorsPerVertex) 4 (fun a _ => rfl), meshVertices_length]
    omega
  · intro j r hj hr
    have hm : 4 * j + r < (meshVertices ps.length).length := by
      rw [meshVertices_length]; omega
    have hmm : 4 * j + r <
        ((meshVertices ps.length).map (colorEntry cs input.colorsPerVertex)).length := by
      simpa using hm
    rw [flatten_chunk ((meshVertices ps.length).map
        (colorEntry cs input.colorsPerVertex)) 4 (4 * j + r)
        (fun ch hch => by
          obtain ⟨v, hv, hrfl⟩ := List.mem_map.mp hch
          rw [← hrfl]; rfl) hmm,
      getD_map_of_lt (meshVertices ps.length) (colorEntry cs input.colorsPerVertex)
        (4 * j + r) [] (0, 0, 0) hm]
    have hj2 : j < ((List.range (ps.length - 1)).map segmentQuad).length := by
      simpa using hj
    show colorEntry cs input.colorsPerVertex
        ((((List.range (ps.length - 1)).map segmentQuad).flatten).getD (4 * j + r)
          (0, 0, 0)) = _
    rw [flatten_getD ((List.range (ps.length - 1)).map segmentQuad) 4 j r (0, 0, 0)
        (fun ch hch => by
          obtain ⟨v, hv, hrfl⟩ := List.mem_map.mp hch
          rw [← hrfl]; rfl) hj2 hr,
      getD_map_of_lt (List.range (ps.length - 1)) segmentQuad j [] 0 (by simpa using hj),
      getD_range hj]
    show colorEntry cs input.colorsPerVertex ((segmentQuad j).getD r (0, 0, 0)) = _
    interval_cases r <;>
      cases hcpv : input.colorsPerVertex <;>
        simp [segmentQuad, colorEntry]

/-- Witness for C7: three positions with three per-vertex colors give a
32-value color buffer whose vertex slices follow the anchor positions. -/
theorem claim_C7_witness :
    ∃ mesh c,
      createGeometry { positions := some testPositions3, width := 10,
                       colors := some [{ red := 1, green := 0, blue := 0, alpha := 1 },
                                       { red := 0, green := 1, blue := 0, alpha := 1 },
                                       { red := 0, green := 0, blue := 1, alpha := 1 }],
                       colorsPerVertex := true } = .ok mesh ∧
      mesh.color = some c ∧
      c.values.length = 32 ∧
      ∀ j r, j < 2 → r < 4 →
        (c.values.drop (4 * (4 * j + r))).take 4 =
          colorList (colorGet [{ red := 1, green := 0, blue := 0, alpha := 1 },
                               { red := 0, green := 1, blue := 0, alpha := 1 },
                               { red := 0, green := 0, blue := 1, alpha := 1 }]
            (j + r / 2)) :=
  claim_C7_color_assignment
    { positions := some testPositions3, width := 10,
      colors := some [{ red := 1, green := 0, blue := 0, alpha := 1 },
                      { red := 0, green := 1, blue := 0, alpha := 1 },
                      { red := 0, green := 0, blue := 1, alpha := 1 }],
      colorsPerVertex := true }
    testPositions3 _ rfl (by decide) (by decide) rfl (by decide)

/-- Witness for C6: three positions with an empty per-segment color array
(2 colors expected) are rejected. -/
theorem claim_C6_witness :
    createGeometry { positions := some [{ x := 0, y := 0, z := 0 },
                                        { x := 1, y := 0, z := 0 },
                                        { x := 2, y := 0, z := 0 }],
                     width := 1, colors := some [], colorsPerVertex := false }
      = .error .invalidParameter :=
  claim_C6_invalid_color_count _ _ [] rfl (by decide) (by norm_num) rfl (by decide)

/-! ## Claims about GeometryAttribute.clone -/

theorem storeWrite_getElem?_ne (s : Store) (n i : Nat) (v : Rat) (j : Nat)
    (h : j ≠ n) : (storeWrite s n i v)[j]? = s[j]? := by
  induction s generalizing n j with
  | nil => simp [storeWrite]
  | cons a t ih =>
    cases n with
    | zero =>
      cases j with
      | zero => omega
      | succ j => simp [storeWrite]
    | succ n =>
      cases j with
      | zero => simp [storeWrite]
      | succ j => simp [storeWrite, ih n j (by omega)]

/-- C3: cloning an attribute whose `values` array exists copies the three
scalar fields, allocates a fresh array (a reference distinct from the
source's) of the same concrete datatype with element-wise equal contents,
and any subsequent write through the clone's reference leaves the source's
array unchanged. -/
theorem claim_C3_clone_deep_copy (s : Store) (g : GeometryAttribute)
    (res : Option GeometryAttribute) (ref : Nat) (arr : TypedArray)
    (hval : g.values = some ref) (harr : s[ref]? = some arr) :
    ∃ g2 a2, GeometryAttribute.clone g s res = some (g2, s ++ [a2]) ∧
      g2.componentDatatype = g.componentDatatype ∧
      g2.componentsPerAttribute = g.componentsPerAttribute ∧
      g2.normalize = g.normalize ∧
      g2.values = some s.length ∧
      s.length ≠ ref ∧
      a2.kind = arr.kind ∧
      a2.data = arr.data ∧
      ∀ i v, (storeWrite (s ++ [a2]) s.length i v)[ref]? = some arr := by
  have href : ref < s.length := (List.getElem?_eq_some.mp harr).1
  refine ⟨{ componentDatatype := g.componentDatatype,
            componentsPerAttribute := g.componentsPerAttribute,
            normalize := g.normalize, values := some s.length },
    { kind := arr.kind, data := arr.data }, ?_, rfl, rfl, rfl, rfl,
    by omega, rfl, rfl, ?_⟩
  · unfold GeometryAttribute.clone
    rw [hval]
    simp only []
    rw [harr]
  · intro i v
    rw [storeWrite_getElem?_ne _ _ _ _ _ (by omega),
      List.getElem?_append_left href, harr]

/-- Witness for C3 on a one-array store: the clone references a fresh copy
and writing through it leaves the source array intact. -/
theorem claim_C3_witness :
    ∃ g2 a2,
      GeometryAttribute.clone
          { componentDatatype := some 5, componentsPerAttribute := some 3,
            normalize := false, values := some 0 }
          [{ kind := ArrayKind.float32Array, data := [1, 2, 3] }] none
        = some (g2, [{ kind := ArrayKind.float32Array, data := [1, 2, 3] }] ++ [a2]) ∧
      g2.componentDatatype = some 5 ∧
      g2.componentsPerAttribute = some 3 ∧
      g2.normalize = false ∧
      g2.values = some 1 ∧
      (1 : Nat) ≠ 0 ∧
      a2.kind = ArrayKind.float32Array ∧
      a2.data = [1, 2, 3] ∧
      ∀ i v,
        (storeWrite ([{ kind := ArrayKind.float32Array, data := [1, 2, 3] }] ++ [a2])
          1 i v)[(0 : Nat)]? =
          some { kind := ArrayKind.float32Array, data := [1, 2, 3] } :=
  claim_C3_clone_deep_copy
    [{ kind := ArrayKind.float32Array, data := [1, 2, 3] }]
    { componentDatatype := some 5, componentsPerAttribute := some 3,
      normalize := false, values := some 0 }
    none 0 { kind := ArrayKind.float32Array, data := [1, 2, 3] } rfl rfl

/-- C10: the constructor stores an absent `values` without validation, but
`clone` is undefined there — `new this.values.constructor(this.values)`
cannot be evaluated on `undefined`, modelled as `clone` returning `none`
whatever the store and the optional result argument. -/
theorem claim_C10_clone_undefined_values (opts : GeometryAttributeOptions)
    (s : Store) (res : Option GeometryAttribute) (hv : opts.values = none) :
    (GeometryAttribute.ofOptions opts).values = none ∧
    (GeometryAttribute.ofOptions opts).componentDatatype = opts.componentDatatype ∧
    (GeometryAttribute.ofOptions opts).componentsPerAttribute =
      opts.componentsPerAttribute ∧
    (GeometryAttribute.ofOptions opts).normalize = opts.normalize.getD false ∧
    GeometryAttribute.clone (GeometryAttribute.ofOptions opts) s res = none := by
  refine ⟨hv, rfl, rfl, rfl, ?_⟩
  unfold GeometryAttribute.clone GeometryAttribute.ofOptions
  simp [hv]

/-- Witness for C10: `new GeometryAttribute()` then `clone` fails. -/
theorem claim_C10_witness :
    (GeometryAttribute.ofOptions emptyOptions).values = none ∧
    (GeometryAttribute.ofOptions emptyOptions).componentDatatype = none ∧
    (GeometryAttribute.ofOptions emptyOptions).componentsPerAttribute = none ∧
    (GeometryAttribute.ofOptions emptyOptions).normalize = false ∧
    GeometryAttribute.clone (GeometryAttribute.ofOptions emptyOptions) [] none = none :=
  claim_C10_clone_undefined_values emptyOptions [] none rfl

/-! ## Claims about the WMS provider URL construction -/

theorem strAppend_assoc (a b c : String) : a ++ b ++ c = a ++ (b ++ c) := by
  ext
  simp

theorem strAppend_empty (a : String) : a ++ "" = a := by
  ext
  simp

theorem strEmpty_append (a : String) : "" ++ a = a := by
  ext
  simp

theorem lookupParam_cons (p : String × String) (t : List (String × String))
    (k : String) :
    lookupParam (p :: t) k = if p.1 = k then some p.2 else lookupParam t k := by
  by_cases hp : p.1 = k <;> simp [lookupParam, List.find?_cons, hp]

theorem lookup_setParam_self (ps : List (String × String)) (k v : String) :
    lookupParam (setParam ps k v) k = some v := by
  induction ps with
  | nil => simp [setParam, lookupParam_cons]
  | cons p t ih =>
    by_cases hp : p.1 = k
    · simp [setParam, hp, lookupParam_cons]
    · simp [setParam, hp, lookupParam_cons, ih]

theorem keysOf_cons (p : String × String) (t : List (String × String)) :
    keysOf (p :: t) = p.1 :: keysOf t := rfl

theorem setParam_cons_hit (p : String × String) (t : List (String × String))
    (k v : String) (hp : p.1 = k) : setParam (p :: t) k v = (k, v) :: t := by
  simp [setParam, hp]

theorem setParam_cons_miss (p : String × String) (t : List (String × String))
    (k v : String) (hp : ¬ p.1 = k) :
    setParam (p :: t) k v = p :: setParam t k v := by
  simp [setParam, hp]

theorem lookup_setParam_ne (ps : List (String × String)) (k q v : String)
    (h : q ≠ k) :
    lookupParam (setParam ps k v) q = lookupParam ps q := by
  have hkq : ¬ k = q := fun hh => h hh.symm
  induction ps with
  | nil => simp [setParam, lookupParam_cons, hkq, lookupParam]
  | cons p t ih =>
    by_cases hp : p.1 = k
    · rw [setParam_cons_hit p t k v hp, lookupParam_cons, lookupParam_cons, hp]
      simp [hkq]
    · rw [setParam_cons_miss p t k v hp, lookupParam_cons, lookupParam_cons, ih]

theorem mem_keysOf_setParam (q : String) (ps : List (String × String)) (k v : String)
    (h : q ∈ keysOf (setParam ps k v)) : q ∈ keysOf ps ∨ q = k := by
  induction ps with
  | nil =>
    rw [show setParam [] k v = [(k, v)] from rfl, keysOf_cons] at h
    exact Or.inr (by simpa [keysOf] using h)
  | cons p t ih =>
    by_cases hp : p.1 = k
    · rw [setParam_cons_hit p t k v hp, keysOf_cons] at h
      rcases List.mem_cons.mp h with h | h
      · exact Or.inr h
      · exact Or.inl (by rw [keysOf_cons]; exact List.mem_cons_of_mem _ h)
    · rw [setParam_cons_miss p t k v hp, keysOf_cons] at h
      rcases List.mem_cons.mp h with h | h
      · exact Or.inl (by rw [keysOf_cons, h]; exact List.mem_cons_self _ _)
      · rcases ih h with h2 | h2
        · exact Or.inl (by rw [keysOf_cons]; exact List.mem_cons_of_mem _ h2)
        · exact Or.inr h2

theorem keysOf_setParam_mem (ps : List (String × String)) (k v : String)
    (h : k ∈ keysOf ps) : keysOf (setParam ps k v) = keysOf ps := by
  induction ps with
  | nil => simp [keysOf] at h
  | cons p t ih =>
    by_cases hp : p.1 = k
    · rw [setParam_cons_hit p t k v hp, keysOf_cons, keysOf_cons, hp]
    · rw [setParam_cons_miss p t k v hp, keysOf_cons, keysOf_cons]
      congr 1
      apply ih
      rw [keysOf_cons] at h
      rcases List.mem_cons.mp h with h2 | h2
      · exact absurd h2.symm hp
      · exact h2

theorem nodup_keysOf_setParam (ps : List (String × String)) (k v : String)
    (h : (keysOf ps).Nodup) : (keysOf (setParam ps k v)).Nodup := by
  induction ps with
  | nil => simp [setParam, keysOf]
  | cons p t ih =>
    rw [keysOf_cons, List.nodup_cons] at h
    by_cases hp : p.1 = k
    · rw [setParam_cons_hit p t k v hp, keysOf_cons, List.nodup_cons]
      exact ⟨hp ▸ h.1, h.2⟩
    · rw [setParam_cons_miss p t k v hp, keysOf_cons, List.nodup_cons]
      refine ⟨fun hk => ?_, ih h.2⟩
      rcases mem_keysOf_setParam p.1 t k v hk with h2 | h2
      · exact h.1 h2
      · exact hp h2

theorem foldl_setParam_lookup (O : List (String × String)) (k : String)
    (h : ∀ kv ∈ O, lowerStr kv.1 ≠ k) (start : List (String × String)) :
    lookupParam
      (O.foldl (fun ps kv => setParam ps (lowerStr kv.1) kv.2) start) k =
      lookupParam start k := by
  induction O generalizing start with
  | nil => rfl
  | cons kv t ih =>
    rw [List.foldl_cons, ih (fun a ha => h a (by simp [ha]))]
    exact lookup_setParam_ne start (lowerStr kv.1) k kv.2
      (fun hq => h kv (by simp) hq.symm)

theorem foldl_setParam_nodup (O : List (String × String))
    (start : List (String × String)) (h : (keysOf start).Nodup) :
    (keysOf (O.foldl (fun ps kv => setParam ps (lowerStr kv.1) kv.2) start)).Nodup := by
  induction O generalizing start with
  | nil => exact h
  | cons kv t ih =>
    rw [List.foldl_cons]
    exact ih _ (nodup_keysOf_setParam start (lowerStr kv.1) kv.2 h)

theorem mergeParameters_nodup (O : List (String × String)) :
    (keysOf (mergeParameters O)).Nodup :=
  foldl_setParam_nodup O DefaultParameters (by decide)

theorem lookupParam_mem (ps : List (String × String)) (k v : String)
    (h : lookupParam ps k = some v) : (k, v) ∈ ps := by
  unfold lookupParam at h
  rcases Option.map_eq_some'.mp h with ⟨p, hfind, hv⟩
  have hk0 := List.find?_some hfind
  have hk : p.1 = k := by simpa using hk0
  have hmem := List.mem_of_find?_eq_some hfind
  have hpkv : p = (k, v) := by
    obtain ⟨p1, p2⟩ := p
    simp_all
  rwa [hpkv] at hmem

theorem paramString_contains (ps : List (String × String)) (k v : String)
    (h : (k, v) ∈ ps) :
    ∃ a b, paramString ps = a ++ (k ++ "=" ++ v ++ "&") ++ b := by
  induction ps with
  | nil => simp at h
  | cons p t ih =>
    rcases List.mem_cons.mp h with h | h
    · refine ⟨"", paramString t, ?_⟩
      rw [← h]
      show k ++ "=" ++ v ++ "&" ++ paramString t = _
      ext
      simp
    · obtain ⟨a, b, hab⟩ := ih h
      refine ⟨p.1 ++ "=" ++ p.2 ++ "&" ++ a, b, ?_⟩
      show p.1 ++ "=" ++ p.2 ++ "&" ++ paramString t = _
      rw [hab]
      ext
      simp

theorem buildImageUrl_decomp (ip : WebMapServiceImageryProvider) (x y level : Nat)
    (hpx : ip.proxy = none) :
    buildImageUrl ip x y level =
      fixUrlQuery ip.url ++ paramString ip.parameters ++
        conditionalAppends ip x y level := by
  unfold buildImageUrl conditionalAppends
  rw [hpx]
  cases h1 : (lookupParam ip.parameters "layers").isNone <;>
    cases h2 : (lookupParam ip.parameters "srs").isNone <;>
      cases h3 : (lookupParam ip.parameters "bbox").isNone <;>
        cases h4 : (lookupParam ip.parameters "width").isNone <;>
          cases h5 : (lookupParam ip.parameters "height").isNone <;>
            simp only [h1, h2, h3, h4, h5, Bool.false_eq_true, if_false, if_true,
              strAppend_assoc, strAppend_empty, strEmpty_append]

/-- C8: for every tile request, the built URL carries each default parameter
(`service=WMS`, `version=1.1.1`, `request=GetMap`, `styles=`,
`format=image/jpeg`) whenever the caller did not override that key
(case-insensitively), and it ends with exactly the conditional appends —
`layers`, `srs=EPSG:4326`, `bbox` (from the tiling scheme at `x, y, level`),
`width=256`, `height=256` — each present if and only if the merged
parameters do not already define its key. -/
theorem claim_C8_url_parameters (d : WMSDescription)
    (ip : WebMapServiceImageryProvider) (O : List (String × String))
    (x y level : Nat) (hp : d.parameters = some O) (hpx : d.proxy = none)
    (hcr : WebMapServiceImageryProvider.create d = Except.ok ip) :
    ip.parameters = mergeParameters O ∧
    (∀ kv ∈ DefaultParameters, (∀ ov ∈ O, lowerStr ov.1 ≠ kv.1) →
      containsSeg (kv.1 ++ "=" ++ kv.2 ++ "&") (buildImageUrl ip x y level)) ∧
    ∃ m, buildImageUrl ip x y level = m ++ conditionalAppends ip x y level := by
  unfold WebMapServiceImageryProvider.create at hcr
  cases hu : d.url with
  | none => rw [hu] at hcr; simp at hcr
  | some u =>
    rw [hu] at hcr
    cases hl : d.layers with
    | none => rw [hl] at hcr; simp at hcr
    | some l0 =>
      rw [hl, hp] at hcr
      simp only [Option.getD_some] at hcr
      injection hcr with h
      subst h
      refine ⟨rfl, ?_, ?_⟩
      · intro kv hkv hov
        have hfold := foldl_setParam_lookup O kv.1 hov DefaultParameters
        have hdef : lookupParam DefaultParameters kv.1 = some kv.2 := by
          simp [DefaultParameters] at hkv
          rcases hkv with h | h | h | h | h <;> rw [h] <;> decide
        have hmerge : lookupParam (mergeParameters O) kv.1 = some kv.2 := by
          rw [mergeParameters, hfold, hdef]
        obtain ⟨a, b, hab⟩ :=
          paramString_contains (mergeParameters O) kv.1 kv.2
            (lookupParam_mem _ _ _ hmerge)
        refine ⟨fixUrlQuery u ++ a,
          b ++ conditionalAppends
            { url := u, layers := l0, parameters := mergeParameters O,
              proxy := d.proxy, tilingScheme := d.tilingScheme } x y level, ?_⟩
        rw [buildImageUrl_decomp _ _ _ _ (by rw [hpx])]
        show fixUrlQuery u ++ paramString (mergeParameters O) ++ _ = _
        rw [hab]
        ext
        simp
      · exact ⟨fixUrlQuery u ++ paramString (mergeParameters O),
          buildImageUrl_decomp _ _ _ _ (by rw [hpx])⟩

/-- The tiling scheme used in witnesses: the whole-globe geographic extent at
every tile. -/
def testScheme : Nat → Nat → Nat → NativeExtent :=
  fun _ _ _ => { west := "-180", south := "-90", east := "180", north := "90" }

/-- The concrete description of the witnesses: a caller override `FORMAT`
(upper case) of the `format` default. -/
def testDescription : WMSDescription :=
  { url := some "http://wms.example.com"
    layers := some "L0"
    parameters := some [("FORMAT", "image/png")]
    proxy := none
    tilingScheme := testScheme }

/-- The provider built from `testDescription`. -/
def testProvider : WebMapServiceImageryProvider :=
  { url := "http://wms.example.com"
    layers := "L0"
    parameters := mergeParameters [("FORMAT", "image/png")]
    proxy := none
    tilingScheme := testScheme }

/-- Witness for C8 on the concrete provider with an upper-case `FORMAT`
override. -/
theorem claim_C8_witness :
    testProvider.parameters = mergeParameters [("FORMAT", "image/png")] ∧
    (∀ kv ∈ DefaultParameters,
      (∀ ov ∈ [("FORMAT", "image/png")], lowerStr ov.1 ≠ kv.1) →
      containsSeg (kv.1 ++ "=" ++ kv.2 ++ "&") (buildImageUrl testProvider 0 0 0)) ∧
    ∃ m, buildImageUrl testProvider 0 0 0 =
      m ++ conditionalAppends testProvider 0 0 0 :=
  claim_C8_url_parameters testDescription testProvider
    [("FORMAT", "image/png")] 0 0 0 rfl rfl rfl

/-- C9: caller override keys are lowercased before the merge: the merged map
binds the lowercased key to the override value, its keys stay duplicate-free
(an override differing from a default key only in case replaces that default
instead of appearing alongside it), an already-present lowercased key leaves
the key set unchanged, and the lowercased key is defined afterwards, which
is what suppresses the conditional appends keyed on it. -/
theorem claim_C9_lowercase_merge (O : List (String × String)) (K v : String) :
    lookupParam (mergeParameters (O ++ [(K, v)])) (lowerStr K) = some v ∧
    (keysOf (mergeParameters (O ++ [(K, v)]))).Nodup ∧
    ((lowerStr K) ∈ keysOf (mergeParameters O) →
      keysOf (mergeParameters (O ++ [(K, v)])) = keysOf (mergeParameters O)) ∧
    (lookupParam (mergeParameters (O ++ [(K, v)])) (lowerStr K)).isNone = false := by
  have hsplit : mergeParameters (O ++ [(K, v)]) =
      setParam (mergeParameters O) (lowerStr K) v := by
    unfold mergeParameters
    rw [List.foldl_append]
    rfl
  refine ⟨?_, ?_, ?_, ?_⟩
  · rw [hsplit]; exact lookup_setParam_self _ _ _
  · rw [hsplit]; exact nodup_keysOf_setParam _ _ _ (mergeParameters_nodup O)
  · intro hmem
    rw [hsplit]
    exact keysOf_setParam_mem _ _ _ hmem
  · rw [hsplit, lookup_setParam_self]
    rfl

/-- Witness for C9: the `FORMAT` override lands on the lowercase `format`
key, which is a default key, so the key set is unchanged and nothing is
duplicated. -/
theorem claim_C9_witness :
    lookupParam (mergeParameters ([] ++ [("FORMAT", "image/png")]))
      (lowerStr "FORMAT") = some "image/png" ∧
    (keysOf (mergeParameters ([] ++ [("FORMAT", "image/png")]))).Nodup ∧
    ((lowerStr "FORMAT") ∈ keysOf (mergeParameters []) →
      keysOf (mergeParameters ([] ++ [("FORMAT", "image/png")])) =
        keysOf (mergeParameters [])) ∧
    (lookupParam (mergeParameters ([] ++ [("FORMAT", "image/png")]))
      (lowerStr "FORMAT")).isNone = false :=
  claim_C9_lowercase_merge [] "FORMAT" "image/png"

end Cesium
